import Mathlib

/-!
Verification of the CodeInventory dependency analyzer.

A shallow embedding of `src/dependency_analyzer.py`: the dependency record
model, the external/internal classifier, the per-file extraction driver, the
report accumulator, the DFS cycle detector, the directory walk and the report
renderer, together with theorems settling the specification claims.

Python dicts (`defaultdict(list)`, `defaultdict(set)`, `defaultdict(int)`) are
modelled as insertion-ordered association lists; Python sets as duplicate-free
lists (only membership in them matters to the embedded code).  The external
`ast-grep` subprocess is modelled by an environment mapping each invocation
(file, pattern, language) to its outcome.
-/

namespace CodeInventory

/-- Embeds the `DependencyInfo` dataclass: one matched import occurrence. -/
structure DependencyInfo where
  package : String
  import_type : String
  file_path : String
  line_number : Nat
  is_external : Bool
deriving Repr, DecidableEq

/-- Embeds the `DependencyReport` dataclass. -/
structure DependencyReport where
  total_dependencies : Nat
  external_dependencies : Nat
  internal_dependencies : Nat
  dependencies_by_file : List (String × List DependencyInfo)
  dependency_graph : List (String × List String)
  circular_dependencies : List (List String)
  unused_dependencies : List String
deriving Repr, DecidableEq

/-- The freshly constructed report `DependencyReport()` (all dataclass defaults). -/
def emptyReport : DependencyReport :=
  { total_dependencies := 0, external_dependencies := 0, internal_dependencies := 0,
    dependencies_by_file := [], dependency_graph := [], circular_dependencies := [],
    unused_dependencies := [] }

/-- `defaultdict(list)` access-and-append: `d[k].append(v)`. -/
def dictAppend {α : Type} (d : List (String × List α)) (k : String) (v : α) :
    List (String × List α) :=
  match d with
  | [] => [(k, [v])]
  | (k1, vs) :: rest =>
    if k1 = k then (k1, vs ++ [v]) :: rest else (k1, vs) :: dictAppend rest k v

/-- Dict lookup with empty default: `d.get(k, [])` (also the value a `defaultdict`
holds at an untouched key). -/
def dictGet {α : Type} (d : List (String × List α)) (k : String) : List α :=
  match d with
  | [] => []
  | (k1, vs) :: rest => if k1 = k then vs else dictGet rest k

/-- Python `set.add`: duplicate-free insertion. -/
def setAdd (s : List String) (x : String) : List String :=
  if x ∈ s then s else s ++ [x]

/-- `defaultdict(set)` access-and-add: `g[k].add(v)`. -/
def graphAdd (g : List (String × List String)) (k v : String) :
    List (String × List String) :=
  match g with
  | [] => [(k, [v])]
  | (k1, vs) :: rest =>
    if k1 = k then (k1, setAdd vs v) :: rest else (k1, vs) :: graphAdd rest k v

/-- `defaultdict(int)` access-and-increment: `d[k] += 1`. -/
def dictIncr (d : List (String × Nat)) (k : String) : List (String × Nat) :=
  match d with
  | [] => [(k, 1)]
  | (k1, n) :: rest =>
    if k1 = k then (k1, n + 1) :: rest else (k1, n) :: dictIncr rest k

/-- Python `str.startswith` (kernel-reducible formulation over the character
lists of the two strings). -/
def strStartsWith (s pre : String) : Bool :=
  List.isPrefixOf pre.toList s.toList

/-- ASCII whitespace recognized by Python `str.strip()`. -/
def isSpaceChar (c : Char) : Bool :=
  c = ' ' ∨ c = '\t' ∨ c = '\n' ∨ c = '\x0d' ∨ c = '\x0b' ∨ c = '\x0c'

/-- Python `str.strip()`: remove leading and trailing whitespace. -/
def pyStrip (s : String) : String :=
  String.mk (((s.toList.dropWhile isSpaceChar).reverse.dropWhile isSpaceChar).reverse)

/-- The `self.external_indicators` list set in `DependencyAnalyzer.__init__`. -/
def external_indicators : List String :=
  ["@", "react", "vue", "angular", "express", "next",
   "lodash", "axios", "moment", "dayjs"]

/-- Embeds `DependencyAnalyzer._is_external_package`. -/
def is_external_package (package : String) : Bool :=
  if strStartsWith package "." then false
  else external_indicators.any (fun indicator => strStartsWith package indicator)

/-- Abstraction of one ast-grep JSON match object: the fields the analyzer
reads.  `singlePackage` is the text at `metaVariables.single.PACKAGE`,
`directPackage` the text at `metaVariables.PACKAGE`, `line` the value at
`range.start.line` (0 when absent). -/
structure AstMatch where
  singlePackage : Option String
  directPackage : Option String
  line : Nat
deriving Repr, DecidableEq

/-- Outcome of one `subprocess.run` invocation of ast-grep: either the process
completed (with a return code, its standard output, and `parsed` the result of
`json.loads` on that output — `none` when it raises `JSONDecodeError`), or it
hit the 30-second timeout, or some other exception was raised. -/
inductive AstgrepOutcome where
  | completed (returncode : Int) (stdout : String) (parsed : Option (List AstMatch))
  | timedOut
  | raised
deriving Repr, DecidableEq

/-- Environment modelling the external ast-grep tool: outcome of the invocation
on (file path, pattern, language). -/
def AstEnv : Type := String → String → String → AstgrepOutcome

/-- Embeds `DependencyAnalyzer._run_astgrep`: returns the parsed match list when
the process succeeded with non-blank output, and `[]` in every caught failure
case (`TimeoutExpired`, `JSONDecodeError`, any other `Exception`). -/
def run_astgrep (env : AstEnv) (file_path pattern language : String) :
    List AstMatch :=
  match env file_path pattern language with
  | AstgrepOutcome.completed returncode stdout parsed =>
    if returncode = 0 ∧ pyStrip stdout ≠ "" then
      match parsed with
      | some ms => ms
      | none => []
    else []
  | AstgrepOutcome.timedOut => []
  | AstgrepOutcome.raised => []

/-- The shared per-match record construction: read the package metavariable
(preferring the `single` form, falling back to the direct form, skipping the
match when neither is present) and build a `DependencyInfo`. -/
def depsOfMatches (ms : List AstMatch) (import_type : String)
    (file_path : String) : List DependencyInfo :=
  ms.filterMap (fun m =>
    (match m.singlePackage with
     | some p => some p
     | none => m.directPackage).map (fun package =>
      { package := package, import_type := import_type, file_path := file_path,
        line_number := m.line, is_external := is_external_package package }))

/-- The pattern list of `analyze_python_imports`. -/
def pythonPatterns : List String :=
  ["import $PACKAGE", "from $PACKAGE import $$$", "import $PACKAGE as $ALIAS"]

/-- One iteration of the pattern loop of `analyze_python_imports`. -/
def pythonPatternDeps (env : AstEnv) (file_path pattern : String) :
    List DependencyInfo :=
  depsOfMatches (run_astgrep env file_path pattern "python") "static" file_path

/-- Embeds `DependencyAnalyzer.analyze_python_imports`. -/
def analyze_python_imports (env : AstEnv) (file_path : String) :
    List DependencyInfo :=
  pythonPatterns.foldl
    (fun dependencies pattern => dependencies ++ pythonPatternDeps env file_path pattern) []

/-- The static pattern list of `analyze_typescript_imports`. -/
def tsStaticPatterns : List String :=
  ["import $$ from \"$PACKAGE\"",
   "import \x7b $$ \x7d from \"$PACKAGE\"",
   "import * as $$ from \"$PACKAGE\"",
   "import \"$PACKAGE\""]

/-- Embeds `DependencyAnalyzer.analyze_typescript_imports`. -/
def analyze_typescript_imports (env : AstEnv) (file_path language : String) :
    List DependencyInfo :=
  let dependencies := tsStaticPatterns.foldl
    (fun dependencies pattern =>
      dependencies ++ depsOfMatches (run_astgrep env file_path pattern language) "static" file_path) []
  let dependencies := dependencies ++
    depsOfMatches (run_astgrep env file_path "import(\"$PACKAGE\")" language) "dynamic" file_path
  let dependencies := dependencies ++
    depsOfMatches (run_astgrep env file_path "require(\"$PACKAGE\")" language) "require" file_path
  dependencies ++
    depsOfMatches (run_astgrep env file_path "import type \x7b $$ \x7d from \"$PACKAGE\"" language)
      "type_only" file_path

/-- Split a character list at every occurrence of a separator character. -/
def splitChar (c : Char) : List Char → List (List Char)
  | [] => [[]]
  | x :: xs =>
    let rest := splitChar c xs
    if x = c then [] :: rest
    else
      match rest with
      | [] => [[x]]
      | g :: gs => (x :: g) :: gs

/-- The final path component, as `pathlib.PurePath.name` on a POSIX path. -/
def pathName (p : String) : String :=
  ((((splitChar (Char.ofNat 47) p.toList).map String.mk).filter
    (fun component => component ≠ "")).getLast?).getD ""

/-- Index of the last occurrence of a character in a list, if any. -/
def lastIdxOf (c : Char) : List Char → Option Nat
  | [] => none
  | x :: xs =>
    match lastIdxOf c xs with
    | some i => some (i + 1)
    | none => if x = c then some 0 else none

/-- `pathlib.PurePath.suffix`: the extension of the final component, including
the leading dot; empty when the name has no dot other than a leading or
trailing one. -/
def pathSuffix (p : String) : String :=
  let cs := (pathName p).toList
  match lastIdxOf (Char.ofNat 46) cs with
  | some i => if 0 < i ∧ i < cs.length - 1 then String.mk (cs.drop i) else ""
  | none => ""

/-- The body of the `for dep in deps` loop of `analyze_file`: store the record,
bump the counters, and add a graph edge for internal records. -/
def addDep (file_path : String) (report : DependencyReport) (dep : DependencyInfo) :
    DependencyReport :=
  let report := { report with
    dependencies_by_file := dictAppend report.dependencies_by_file dep.file_path dep,
    total_dependencies := report.total_dependencies + 1 }
  let report :=
    if dep.is_external then
      { report with external_dependencies := report.external_dependencies + 1 }
    else
      { report with internal_dependencies := report.internal_dependencies + 1 }
  if dep.is_external then report
  else
    { report with dependency_graph := graphAdd report.dependency_graph file_path dep.package }

/-- Embeds `DependencyAnalyzer.analyze_file`: dispatch on the file suffix, then
fold the extracted records into the report. -/
def analyze_file (env : AstEnv) (report : DependencyReport) (file_path : String) :
    DependencyReport :=
  if pathSuffix file_path = ".py" then
    (analyze_python_imports env file_path).foldl (addDep file_path) report
  else if pathSuffix file_path = ".ts" ∨ pathSuffix file_path = ".tsx" then
    (analyze_typescript_imports env file_path "typescript").foldl (addDep file_path) report
  else if pathSuffix file_path = ".js" ∨ pathSuffix file_path = ".jsx" then
    (analyze_typescript_imports env file_path "javascript").foldl (addDep file_path) report
  else report

/-- Analyzing a sequence of files starting from the fresh report. -/
def analyze_files (env : AstEnv) (files : List String) : DependencyReport :=
  files.foldl (analyze_file env) emptyReport

/-- Python `list.index`: position of the first occurrence (the embedded code
only calls it on members, where `list.index` cannot raise). -/
def listIndexOf (l : List String) (x : String) : Nat :=
  match l with
  | [] => 0
  | y :: ys => if y = x then 0 else listIndexOf ys x + 1

/-- Fuel bounding the DFS recursion depth: more than the number of node
occurrences in the adjacency structure, hence never exhausted (each recursive
step visits a previously unvisited node). -/
def graphFuel (g : List (String × List String)) : Nat :=
  (g.map Prod.fst ++ (g.map Prod.snd).flatten).length + 1

/-- Embeds the inner `dfs` closure of `find_circular_dependencies`.  The shared
mutable `visited` set and cycle list are threaded through the neighbor loop;
`rec_stack` is restored by each child before returning, so it is passed down
unchanged; `path` is copied into each child (`path.copy()`). -/
def dfsVisit (g : List (String × List String)) (fuel : Nat) (node : String)
    (path0 visited0 recStack0 : List String) (circ0 : List (List String)) :
    List String × List (List String) :=
  match fuel with
  | 0 => (visited0, circ0)
  | Nat.succ fuel =>
    let visited := setAdd visited0 node
    let recStack := setAdd recStack0 node
    let path := path0 ++ [node]
    (dictGet g node).foldl
      (fun (acc : List String × List (List String)) neighbor =>
        if neighbor ∉ acc.1 then
          dfsVisit g fuel neighbor path acc.1 recStack acc.2
        else if neighbor ∈ recStack then
          let cycle := path.drop (listIndexOf path neighbor) ++ [neighbor]
          (acc.1, if cycle ∈ acc.2 then acc.2 else acc.2 ++ [cycle])
        else acc)
      (visited, circ0)

/-- Embeds `DependencyAnalyzer.find_circular_dependencies`: DFS from every not
yet globally visited node, with a fresh recursion stack and empty path per
root. -/
def find_circular_dependencies (report : DependencyReport) : DependencyReport :=
  let g := report.dependency_graph
  let result := (g.map Prod.fst).foldl
    (fun (acc : List String × List (List String)) node =>
      if node ∉ acc.1 then
        dfsVisit g (graphFuel g) node [] acc.1 [] acc.2
      else acc)
    ([], report.circular_dependencies)
  { report with circular_dependencies := result.2 }

/-- Lexicographic (code-point) comparison of character lists, as Python
compares strings. -/
def charListLt : List Char → List Char → Bool
  | [], [] => false
  | [], _ :: _ => true
  | _ :: _, [] => false
  | a :: as, b :: bs => if a < b then true else if b < a then false else charListLt as bs

/-- Python `a < b` on strings (kernel-reducible). -/
def strLt (a b : String) : Bool := charListLt a.toList b.toList

/-- Python `a <= b` on strings. -/
def strLe (a b : String) : Bool := !(strLt b a)

/-- The `"=" * 80` banner line of the text report. -/
def eqBar : String := String.mk (List.replicate 80 (Char.ofNat 61))

/-- The `external_packages` set accumulated in `generate_report_text`: every
package name carried by at least one record with `is_external` set. -/
def external_packages_of (report : DependencyReport) : List String :=
  report.dependencies_by_file.foldl
    (fun acc e => e.2.foldl
      (fun acc dep => if dep.is_external then setAdd acc dep.package else acc) acc) []

/-- The `usage_count` computed per package in `generate_report_text`: one per
record (in any file) whose `package` field equals the given package. -/
def usage_count (report : DependencyReport) (package : String) : Nat :=
  report.dependencies_by_file.foldl
    (fun acc e => acc + e.2.countP (fun dep => dep.package == package)) 0

/-- The `by_type` tally of `generate_report_text`. -/
def by_type_of (report : DependencyReport) : List (String × Nat) :=
  report.dependencies_by_file.foldl
    (fun acc e => e.2.foldl (fun acc dep => dictIncr acc dep.import_type) acc) []

/-- The `top_files` ranking of `generate_report_text`: the per-file record
lists, stably sorted by descending record count (`sorted(..., key=len,
reverse=True)`), truncated to ten entries. -/
def top_files (report : DependencyReport) : List (String × List DependencyInfo) :=
  (List.insertionSort (fun a b => b.2.length ≤ a.2.length)
    report.dependencies_by_file).take 10

/-- Embeds `DependencyAnalyzer.generate_report_text`. -/
def generate_report_text (root_dir : String) (report : DependencyReport) : String :=
  let lines : List String := [eqBar, "DEPENDENCY ANALYSIS REPORT", eqBar, "",
    "Root Directory: " ++ root_dir, "", eqBar, "SUMMARY", eqBar, "",
    "Total Dependencies: " ++ toString report.total_dependencies,
    "External Dependencies: " ++ toString report.external_dependencies,
    "Internal Dependencies: " ++ toString report.internal_dependencies,
    "Files Analyzed: " ++ toString report.dependencies_by_file.length,
    ""]
  let external_packages := external_packages_of report
  let lines := lines ++
    (if external_packages ≠ [] then
      [eqBar, "EXTERNAL PACKAGES (" ++ toString external_packages.length ++ ")", eqBar, ""] ++
      (List.insertionSort (fun a b => strLe a b = true) external_packages).map
        (fun package =>
          "  📦 " ++ package ++ " (used " ++ toString (usage_count report package) ++ "x)") ++
      [""]
    else [])
  let by_type := by_type_of report
  let lines := lines ++
    (if by_type ≠ [] then
      [eqBar, "DEPENDENCIES BY IMPORT TYPE", eqBar, ""] ++
      (List.insertionSort (fun a b => strLe a.1 b.1 = true) by_type).map
        (fun e => "  " ++ e.1 ++ ": " ++ toString e.2) ++
      [""]
    else [])
  let lines := lines ++
    (if report.circular_dependencies ≠ [] then
      [eqBar,
       "⚠️  CIRCULAR DEPENDENCIES DETECTED (" ++
         toString report.circular_dependencies.length ++ ")", eqBar, ""] ++
      (report.circular_dependencies.enumFrom 1).flatMap
        (fun e => ("  Cycle " ++ toString e.1 ++ ":") ::
          e.2.map (fun file => "    → " ++ file) ++ [""])
    else [])
  let lines := lines ++
    (if top_files report ≠ [] then
      [eqBar, "TOP FILES BY DEPENDENCY COUNT", eqBar, ""] ++
      (top_files report).flatMap
        (fun e => ["  📄 " ++ e.1, "     " ++ toString e.2.length ++ " dependencies", ""])
    else [])
  let lines := lines ++ [eqBar, "END OF REPORT", eqBar]
  String.intercalate "\n" lines

/-- A directory entry of the modelled filesystem tree. -/
inductive Dirent where
  | file (name : String)
  | dir (name : String) (entries : List Dirent)
deriving Repr

/-- The default `skip_dirs` set of `analyze_directory`. -/
def defaultSkipDirs : List String :=
  [".git", "node_modules", "__pycache__", ".next", "dist", "build",
   "_site", ".venv", "venv", "env", ".cache", "coverage"]

/-- The extension allowlist of the `analyze_directory` file loop. -/
def sourceExtensions : List String := [".py", ".ts", ".tsx", ".js", ".jsx"]

/-- The body of the `os.walk` loop of `analyze_directory` for one directory:
analyze the matching files of this directory, then (mirroring the in-place
`dirs[:]` pruning, which controls where `os.walk` recurses) descend into each
subdirectory that is neither in `skip_dirs` nor dot-prefixed. -/
def walkDir (env : AstEnv) (skip_dirs : List String) :
    String → List Dirent → DependencyReport → DependencyReport
  | dirpath, entries, report =>
    let report := (entries.filterMap
      (fun e => match e with | Dirent.file n => some n | Dirent.dir _ _ => none)).foldl
      (fun report file_name =>
        let file_path := dirpath ++ "/" ++ file_name
        if pathSuffix file_path ∈ sourceExtensions then analyze_file env report file_path
        else report) report
    walkSubdirs env skip_dirs dirpath entries report
where
  /-- The recursion of `os.walk` into the pruned subdirectory list. -/
  walkSubdirs (env : AstEnv) (skip_dirs : List String) :
      String → List Dirent → DependencyReport → DependencyReport
    | _, [], report => report
    | dirpath, Dirent.file _ :: rest, report =>
      walkSubdirs env skip_dirs dirpath rest report
    | dirpath, Dirent.dir n sub :: rest, report =>
      let report :=
        if n ∉ skip_dirs ∧ strStartsWith n "." = false then
          walkDir env skip_dirs (dirpath ++ "/" ++ n) sub report
        else report
      walkSubdirs env skip_dirs dirpath rest report

/-- Embeds `DependencyAnalyzer.analyze_directory`.  The filesystem is given as
the entry list of the root directory, or `none` when the root is absent — in
which case `os.walk` (with its default `onerror=None`) yields no triples at
all and the loop body never runs. -/
def analyze_directory (env : AstEnv) (skip_dirs : List String)
    (fs : Option (List Dirent)) (root : String) (report : DependencyReport) :
    DependencyReport :=
  match fs with
  | none => report
  | some entries => walkDir env skip_dirs root entries report

/-- Embeds the report-producing part of `main`: analyze the directory, detect
cycles when `--detect-circular` was passed, and render the text report (which
`main` always prints, and writes to a file when `--text` was passed). -/
def main_run (env : AstEnv) (directory : String) (fs : Option (List Dirent))
    (detect_circular : Bool) : String :=
  let report := analyze_directory env defaultSkipDirs fs directory emptyReport
  let report := if detect_circular then find_circular_dependencies report else report
  generate_report_text directory report

/-- Companion to `dfsVisit` that records every cycle discovery unconditionally,
in discovery order, with no dedup filter.  `dfsVisit` is proved equal to
`rawVisit` followed by the dedup fold, which isolates the part of the detector
that depends on the pre-existing cycle list. -/
def rawVisit (g : List (String × List String)) (fuel : Nat) (node : String)
    (path0 visited0 recStack0 : List String) :
    List String × List (List String) :=
  match fuel with
  | 0 => (visited0, [])
  | Nat.succ fuel =>
    let visited := setAdd visited0 node
    let recStack := setAdd recStack0 node
    let path := path0 ++ [node]
    (dictGet g node).foldl
      (fun (acc : List String × List (List String)) neighbor =>
        if neighbor ∉ acc.1 then
          let r := rawVisit g fuel neighbor path acc.1 recStack
          (r.1, acc.2 ++ r.2)
        else if neighbor ∈ recStack then
          (acc.1, acc.2 ++ [path.drop (listIndexOf path neighbor) ++ [neighbor]])
        else acc)
      (visited, [])

/-- The dedup filter of the cycle detector, folded over a list of discovered
cycles: append each cycle not already present. -/
def dedupAppend (circ found : List (List String)) : List (List String) :=
  found.foldl (fun acc cycle => if cycle ∈ acc then acc else acc ++ [cycle]) circ

/-- All cycle discoveries of one detector run over the graph, in discovery
order, before deduplication. -/
def rawCycles (g : List (String × List String)) : List (List String) :=
  ((g.map Prod.fst).foldl
    (fun (acc : List String × List (List String)) node =>
      if node ∉ acc.1 then
        let r := rawVisit g (graphFuel g) node [] acc.1 []
        (r.1, acc.2 ++ r.2)
      else acc) ([], [])).2

/-- Total record count across the per-file groupings of the report. -/
def recordTotal (by_file : List (String × List DependencyInfo)) : Nat :=
  (by_file.map (fun e => e.2.length)).sum

/-- The counting invariant of the report accumulator. -/
def countsInv (report : DependencyReport) : Prop :=
  report.total_dependencies =
    report.external_dependencies + report.internal_dependencies ∧
  report.total_dependencies = recordTotal report.dependencies_by_file

/-- The edge/record correspondence invariant of the report accumulator. -/
def edgeInv (report : DependencyReport) : Prop :=
  ∀ src target, target ∈ dictGet report.dependency_graph src ↔
    ∃ dep ∈ dictGet report.dependencies_by_file src,
      dep.package = target ∧ dep.is_external = false

/-- Aggregation following the claim wording for the usage count (to be compared
with the code's `usage_count`): the number of distinct files whose record list
references the package at least once. -/
def filesReferencing (report : DependencyReport) (package : String) : Nat :=
  (report.dependencies_by_file.filter
    (fun e => e.2.any (fun dep => dep.package == package))).length

/-- Fan-out in the claim's sense: the number of distinct outgoing edges from a
file's node in the dependency graph. -/
def fan_out (report : DependencyReport) (file : String) : Nat :=
  (dictGet report.dependency_graph file).length

/-- Ranking following the claim wording for the report's file ranking (to be
compared with the code's `top_files`): files ordered by descending graph
fan-out, ties in stable input order, truncated to ten. -/
def claimRankingByFanOut (report : DependencyReport) :
    List (String × List DependencyInfo) :=
  (List.insertionSort (fun a b => fan_out report b.1 ≤ fan_out report a.1)
    report.dependencies_by_file).take 10

/-- An ast-grep environment in which every invocation times out. -/
def envTimeout : AstEnv := fun _ _ _ => AstgrepOutcome.timedOut

/-- Fixture: `a.py` holds two import occurrences of the same external package
`react`. -/
def envC4 : AstEnv := fun file pattern _ =>
  if file = "a.py" ∧ pattern = "import $PACKAGE" then
    AstgrepOutcome.completed 0 "x" (some
      [{ singlePackage := some "react", directPackage := none, line := 1 },
       { singlePackage := some "react", directPackage := none, line := 2 }])
  else AstgrepOutcome.completed 0 "" none

/-- The report of analyzing `a.py` under `envC4`. -/
def reportC4 : DependencyReport := analyze_files envC4 ["a.py"]

/-- Fixture: every invocation succeeds with an empty match list. -/
def envC6ok : AstEnv := fun _ _ _ => AstgrepOutcome.completed 0 "x" (some [])

/-- Fixture: like `envC6ok`, but the typescript `require` invocation on `m.ts`
times out. -/
def envC6bad : AstEnv := fun file pattern language =>
  if file = "m.ts" ∧ pattern = "require(\"$PACKAGE\")" ∧ language = "typescript"
  then AstgrepOutcome.timedOut
  else AstgrepOutcome.completed 0 "x" (some [])

/-- Fixture: `a.py` references the external packages `react` and `axios`;
`b.py` references the internal module `./x`. -/
def envC8 : AstEnv := fun file pattern _ =>
  if file = "a.py" ∧ pattern = "import $PACKAGE" then
    AstgrepOutcome.completed 0 "x" (some
      [{ singlePackage := some "react", directPackage := none, line := 1 },
       { singlePackage := some "axios", directPackage := none, line := 2 }])
  else if file = "b.py" ∧ pattern = "import $PACKAGE" then
    AstgrepOutcome.completed 0 "x" (some
      [{ singlePackage := some "./x", directPackage := none, line := 1 }])
  else AstgrepOutcome.completed 0 "" none

/-- The report of analyzing `a.py` then `b.py` under `envC8`. -/
def reportC8 : DependencyReport := analyze_files envC8 ["a.py", "b.py"]

/-- The neighbor-loop body of `dfsVisit` at one fuel level, as a named step
function (definitionally the inline loop body of `dfsVisit`). -/
def dfsNeighborStep (g : List (String × List String)) (fuel : Nat)
    (path recStack : List String)
    (acc : List String × List (List String)) (neighbor : String) :
    List String × List (List String) :=
  if neighbor ∉ acc.1 then dfsVisit g fuel neighbor path acc.1 recStack acc.2
  else if neighbor ∈ recStack then
    (acc.1,
     if path.drop (listIndexOf path neighbor) ++ [neighbor] ∈ acc.2 then acc.2
     else acc.2 ++ [path.drop (listIndexOf path neighbor) ++ [neighbor]])
  else acc

/-- The neighbor-loop body of `rawVisit`, as a named step function. -/
def rawNeighborStep (g : List (String × List String)) (fuel : Nat)
    (path recStack : List String)
    (acc : List String × List (List String)) (neighbor : String) :
    List String × List (List String) :=
  if neighbor ∉ acc.1 then
    ((rawVisit g fuel neighbor path acc.1 recStack).1,
     acc.2 ++ (rawVisit g fuel neighbor path acc.1 recStack).2)
  else if neighbor ∈ recStack then
    (acc.1, acc.2 ++ [path.drop (listIndexOf path neighbor) ++ [neighbor]])
  else acc

/-- The root-loop body of `find_circular_dependencies`, as a named step
function. -/
def dfsRootStep (g : List (String × List String))
    (acc : List String × List (List String)) (node : String) :
    List String × List (List String) :=
  if node ∉ acc.1 then dfsVisit g (graphFuel g) node [] acc.1 [] acc.2 else acc

/-- The root-loop body of `rawCycles`, as a named step function. -/
def rawRootStep (g : List (String × List String))
    (acc : List String × List (List String)) (node : String) :
    List String × List (List String) :=
  if node ∉ acc.1 then
    ((rawVisit g (graphFuel g) node [] acc.1 []).1,
     acc.2 ++ (rawVisit g (graphFuel g) node [] acc.1 []).2)
  else acc

/-- Appending one record adds exactly one to the record total of the per-file
grouping. -/
theorem recordTotal_dictAppend (d : List (String × List DependencyInfo))
    (k : String) (v : DependencyInfo) :
    recordTotal (dictAppend d k v) = recordTotal d + 1 := by
  induction d with
  | nil => simp [dictAppend, recordTotal]
  | cons e rest ih =>
    obtain ⟨k1, vs⟩ := e
    by_cases h : k1 = k <;>
      simp [dictAppend, h, recordTotal] at ih ⊢ <;> omega

/-- `addDep` preserves the counting invariant. -/
theorem countsInv_addDep {report : DependencyReport} (h : countsInv report)
    (file_path : String) (dep : DependencyInfo) :
    countsInv (addDep file_path report dep) := by
  obtain ⟨h1, h2⟩ := h
  unfold countsInv addDep
  by_cases hd : dep.is_external <;>
    simp [hd, recordTotal_dictAppend] <;> omega

/-- The record loop of `analyze_file` preserves the counting invariant. -/
theorem countsInv_foldl_addDep (file_path : String) :
    ∀ (deps : List DependencyInfo) (report : DependencyReport), countsInv report →
      countsInv (deps.foldl (addDep file_path) report)
  | [], _, h => h
  | dep :: rest, _, h =>
    countsInv_foldl_addDep file_path rest _ (countsInv_addDep h file_path dep)

/-- `analyze_file` preserves the counting invariant. -/
theorem countsInv_analyze_file (env : AstEnv) (file_path : String)
    {report : DependencyReport} (h : countsInv report) :
    countsInv (analyze_file env report file_path) := by
  unfold analyze_file
  split
  · exact countsInv_foldl_addDep _ _ _ h
  · split
    · exact countsInv_foldl_addDep _ _ _ h
    · split
      · exact countsInv_foldl_addDep _ _ _ h
      · exact h

/-- Any sequence of `analyze_file` calls preserves the counting invariant. -/
theorem countsInv_foldl_analyze (env : AstEnv) :
    ∀ (files : List String) (report : DependencyReport), countsInv report →
      countsInv (files.foldl (analyze_file env) report)
  | [], _, h => h
  | f :: rest, _, h =>
    countsInv_foldl_analyze env rest _ (countsInv_analyze_file env f h)

/-- C9: after every call to `analyze_file`, starting from the freshly
constructed report, `total_dependencies` equals `external_dependencies +
internal_dependencies`, and also equals the total number of records stored
across `dependencies_by_file`. -/
theorem analyze_counts_invariant (env : AstEnv) (files : List String) :
    (analyze_files env files).total_dependencies =
      (analyze_files env files).external_dependencies +
        (analyze_files env files).internal_dependencies ∧
    (analyze_files env files).total_dependencies =
      recordTotal (analyze_files env files).dependencies_by_file :=
  countsInv_foldl_analyze env files emptyReport ⟨rfl, rfl⟩

/-- C10: analyzing a file whose suffix is none of `.py`, `.ts`, `.tsx`, `.js`,
`.jsx` leaves every field of the report exactly as before the call. -/
theorem analyze_file_frame (env : AstEnv) (report : DependencyReport)
    (file_path : String) (h : pathSuffix file_path ∉ sourceExtensions) :
    analyze_file env report file_path = report := by
  simp only [sourceExtensions, List.mem_cons, List.not_mem_nil, or_false,
    not_or] at h
  obtain ⟨h1, h2, h3, h4, h5⟩ := h
  simp [analyze_file, h1, h2, h3, h4, h5]

/-- Witness for C10 at a concrete markdown file and the all-timeout tool
environment. -/
theorem analyze_file_frame_witness :
    analyze_file envTimeout emptyReport "README.md" = emptyReport :=
  analyze_file_frame envTimeout emptyReport "README.md" (by decide)

/-- C3: on the graph with exactly the edges A→B, B→C, C→A, with A the first
unvisited root explored, the detector reports exactly the one cycle
[A, B, C, A]; on the graph with exactly the edges A→B, B→C it reports no
cycle. -/
theorem cycle_detector_examples :
    (find_circular_dependencies { emptyReport with
        dependency_graph := [("A", ["B"]), ("B", ["C"]), ("C", ["A"])]
      }).circular_dependencies = [["A", "B", "C", "A"]] ∧
    (find_circular_dependencies { emptyReport with
        dependency_graph := [("A", ["B"]), ("B", ["C"])]
      }).circular_dependencies = [] := by decide

/-- C1 counterexample: the reference `os` is non-empty and does not begin with
`.` or `..`, yet the classifier returns `false` for it (it matches no entry of
`external_indicators`), contradicting the claim that every such reference is
classified external. -/
theorem is_external_counterexample :
    "os" ≠ "" ∧ strStartsWith "os" "." = false ∧ strStartsWith "os" ".." = false ∧
      is_external_package "os" = false := by decide

/-- C1 amended: a reference beginning with `.` is never classified external;
any other reference is classified external exactly when it begins with one of
the known `external_indicators`. -/
theorem is_external_amended (package : String) :
    (strStartsWith package "." = true → is_external_package package = false) ∧
    (strStartsWith package "." = false →
      (is_external_package package = true ↔
        ∃ indicator ∈ external_indicators, strStartsWith package indicator = true)) := by
  constructor
  · intro h
    simp [is_external_package, h]
  · intro h
    simp [is_external_package, h, List.any_eq_true]

/-- Witness for C1 amended: a relative reference is internal, and a reference
starting with the indicator `react` is external. -/
theorem is_external_amended_witness :
    is_external_package "./utils" = false ∧ is_external_package "react" = true :=
  ⟨(is_external_amended "./utils").1 (by decide),
   ((is_external_amended "react").2 (by decide)).mpr
     ⟨"react", by decide, by decide⟩⟩

/-- Lookup after a `defaultdict(list)` append: the appended value lands at the
end of the list held at its key, every other key is untouched. -/
theorem dictGet_dictAppend {α : Type} (d : List (String × List α)) (k q : String)
    (v : α) :
    dictGet (dictAppend d k v) q =
      if q = k then dictGet d q ++ [v] else dictGet d q := by
  induction d with
  | nil =>
    by_cases h : q = k
    · subst h; simp [dictAppend, dictGet]
    · simp [dictAppend, dictGet, h, Ne.symm h]
  | cons e rest ih =>
    obtain ⟨k1, vs⟩ := e
    by_cases h1 : k1 = k
    · subst h1
      by_cases h2 : q = k1
      · subst h2; simp [dictAppend, dictGet]
      · simp [dictAppend, dictGet, h2, Ne.symm h2]
    · by_cases h2 : k1 = q
      · subst h2
        simp [dictAppend, dictGet, h1, fun hh : k1 = k => h1 hh]
      · simp [dictAppend, dictGet, h1, h2, ih]

/-- Membership in a Python set after `add`. -/
theorem mem_setAdd {s : List String} {x y : String} :
    y ∈ setAdd s x ↔ y ∈ s ∨ y = x := by
  unfold setAdd
  by_cases h : x ∈ s
  · simp only [if_pos h]
    constructor
    · exact Or.inl
    · rintro (hy | rfl)
      · exact hy
      · exact h
  · simp [if_neg h]

/-- Membership in a graph neighbor set after adding one edge. -/
theorem mem_dictGet_graphAdd (g : List (String × List String)) (k v q x : String) :
    x ∈ dictGet (graphAdd g k v) q ↔ x ∈ dictGet g q ∨ (q = k ∧ x = v) := by
  induction g with
  | nil =>
    by_cases h : q = k
    · subst h; simp [graphAdd, dictGet]
    · simp [graphAdd, dictGet, h, Ne.symm h]
  | cons e rest ih =>
    obtain ⟨k1, vs⟩ := e
    by_cases h1 : k1 = k
    · subst h1
      by_cases h2 : q = k1
      · subst h2; simp [graphAdd, dictGet, mem_setAdd]
      · simp [graphAdd, dictGet, h2, Ne.symm h2]
    · by_cases h2 : k1 = q
      · subst h2
        simp [graphAdd, dictGet, h1, fun hh : k1 = k => h1 hh]
      · simp [graphAdd, dictGet, h1, h2, ih]

/-- The graph update performed by `addDep`. -/
theorem addDep_dependency_graph (file_path : String) (report : DependencyReport)
    (dep : DependencyInfo) :
    (addDep file_path report dep).dependency_graph =
      if dep.is_external then report.dependency_graph
      else graphAdd report.dependency_graph file_path dep.package := by
  unfold addDep
  by_cases hd : dep.is_external <;> simp [hd]

/-- The grouping update performed by `addDep`. -/
theorem addDep_dependencies_by_file (file_path : String)
    (report : DependencyReport) (dep : DependencyInfo) :
    (addDep file_path report dep).dependencies_by_file =
      dictAppend report.dependencies_by_file dep.file_path dep := by
  unfold addDep
  by_cases hd : dep.is_external <;> simp [hd]

/-- `addDep` preserves the edge/record correspondence, provided the record is
keyed by the analyzed file (as every record built by the extractors is). -/
theorem edgeInv_addDep {report : DependencyReport} (h : edgeInv report)
    {dep : DependencyInfo} {file_path : String}
    (hfp : dep.file_path = file_path) :
    edgeInv (addDep file_path report dep) := by
  intro src target
  unfold edgeInv at h
  rw [show target ∈ dictGet (addDep file_path report dep).dependency_graph src ↔
        target ∈ dictGet (if dep.is_external then report.dependency_graph
          else graphAdd report.dependency_graph file_path dep.package) src from by
      rw [addDep_dependency_graph],
    addDep_dependencies_by_file, hfp, dictGet_dictAppend]
  by_cases hd : dep.is_external
  · simp only [hd, if_true]
    by_cases hsrc : src = file_path
    · simp only [hsrc, if_pos rfl]
      constructor
      · intro ht
        obtain ⟨d, hdm, hp⟩ := (h file_path target).mp ht
        exact ⟨d, List.mem_append_left _ hdm, hp⟩
      · rintro ⟨d, hdm, hp⟩
        rcases List.mem_append.mp hdm with hdm | hdm
        · exact (h file_path target).mpr ⟨d, hdm, hp⟩
        · rw [List.mem_singleton] at hdm
          subst hdm
          rw [hd] at hp
          exact absurd hp.2 (by simp)
    · simp only [if_neg hsrc]
      exact h src target
  · rw [Bool.not_eq_true] at hd
    simp only [hd, if_false, Bool.false_eq_true, ite_false]
    rw [mem_dictGet_graphAdd]
    by_cases hsrc : src = file_path
    · simp only [hsrc, if_pos rfl]
      constructor
      · rintro (ht | ⟨-, rfl⟩)
        · obtain ⟨d, hdm, hp⟩ := (h file_path target).mp ht
          exact ⟨d, List.mem_append_left _ hdm, hp⟩
        · exact ⟨dep, List.mem_append_right _ (List.mem_singleton.mpr rfl), rfl, hd⟩
      · rintro ⟨d, hdm, hp⟩
        rcases List.mem_append.mp hdm with hdm | hdm
        · exact Or.inl ((h file_path target).mpr ⟨d, hdm, hp⟩)
        · rw [List.mem_singleton] at hdm
          subst hdm
          exact Or.inr ⟨by trivial, hp.1.symm⟩
    · simp only [if_neg hsrc]
      constructor
      · rintro (ht | ⟨rfl, -⟩)
        · exact (h src target).mp ht
        · exact absurd rfl hsrc
      · intro hr
        exact Or.inl ((h src target).mpr hr)

/-- Every record built from a match list carries the analyzed file path. -/
theorem file_path_depsOfMatches (ms : List AstMatch) (t fp : String) :
    ∀ d ∈ depsOfMatches ms t fp, d.file_path = fp := by
  intro d hd
  unfold depsOfMatches at hd
  rw [List.mem_filterMap] at hd
  obtain ⟨m, -, hm⟩ := hd
  rcases hs : m.singlePackage with - | p <;> rw [hs] at hm
  · rcases hdp : m.directPackage with - | p <;> rw [hdp] at hm
    · simp at hm
    · simp at hm
      subst hm
      rfl
  · simp at hm
    subst hm
    rfl

/-- Accumulating per-pattern record batches preserves a pointwise property. -/
theorem foldl_append_prop {β : Type} (P : β → Prop) (f : String → List β)
    (hf : ∀ p, ∀ x ∈ f p, P x) :
    ∀ (pats : List String) (acc : List β), (∀ x ∈ acc, P x) →
      ∀ x ∈ pats.foldl (fun a p => a ++ f p) acc, P x
  | [], _, hacc => hacc
  | p :: rest, acc, hacc => by
    apply foldl_append_prop P f hf rest
    intro x hx
    rcases List.mem_append.mp hx with hx | hx
    · exact hacc x hx
    · exact hf p x hx

/-- Every record extracted from a python file carries that file's path. -/
theorem file_path_python (env : AstEnv) (fp : String) :
    ∀ d ∈ analyze_python_imports env fp, d.file_path = fp := by
  unfold analyze_python_imports
  exact foldl_append_prop _ _
    (fun p => file_path_depsOfMatches _ _ _) _ _ (by simp)

/-- Every record extracted from a typescript/javascript file carries that
file's path. -/
theorem file_path_typescript (env : AstEnv) (fp lang : String) :
    ∀ d ∈ analyze_typescript_imports env fp lang, d.file_path = fp := by
  unfold analyze_typescript_imports
  intro d hd
  simp only [List.mem_append] at hd
  rcases hd with ((hd | hd) | hd) | hd
  · exact foldl_append_prop _ _
      (fun p => file_path_depsOfMatches _ _ _) _ _ (by simp) d hd
  · exact file_path_depsOfMatches _ _ _ d hd
  · exact file_path_depsOfMatches _ _ _ d hd
  · exact file_path_depsOfMatches _ _ _ d hd

/-- The record loop of `analyze_file` preserves the edge/record
correspondence. -/
theorem edgeInv_foldl_addDep (file_path : String) :
    ∀ (deps : List DependencyInfo) (report : DependencyReport), edgeInv report →
      (∀ d ∈ deps, d.file_path = file_path) →
      edgeInv (deps.foldl (addDep file_path) report)
  | [], _, h, _ => h
  | dep :: rest, _, h, hfp =>
    edgeInv_foldl_addDep file_path rest _
      (edgeInv_addDep h (hfp dep (List.mem_cons_self _ _)))
      (fun d hd => hfp d (List.mem_cons_of_mem _ hd))

/-- `analyze_file` preserves the edge/record correspondence. -/
theorem edgeInv_analyze_file (env : AstEnv) (file_path : String)
    {report : DependencyReport} (h : edgeInv report) :
    edgeInv (analyze_file env report file_path) := by
  unfold analyze_file
  split
  · exact edgeInv_foldl_addDep _ _ _ h (file_path_python env file_path)
  · split
    · exact edgeInv_foldl_addDep _ _ _ h (file_path_typescript env file_path _)
    · split
      · exact edgeInv_foldl_addDep _ _ _ h (file_path_typescript env file_path _)
      · exact h

/-- Any sequence of `analyze_file` calls preserves the edge/record
correspondence. -/
theorem edgeInv_foldl_analyze (env : AstEnv) :
    ∀ (files : List String) (report : DependencyReport), edgeInv report →
      edgeInv (files.foldl (analyze_file env) report)
  | [], _, h => h
  | f :: rest, _, h =>
    edgeInv_foldl_analyze env rest _ (edgeInv_analyze_file env f h)

/-- C2: over any stream of analyzed files, a graph edge from a source file to a
target reference exists if and only if some record stored for that source file
with that package reference has `is_external = false`; in particular external
records alone never produce an edge. -/
theorem graph_edge_iff_internal_record (env : AstEnv) (files : List String)
    (src target : String) :
    target ∈ dictGet (analyze_files env files).dependency_graph src ↔
      ∃ dep ∈ dictGet (analyze_files env files).dependencies_by_file src,
        dep.package = target ∧ dep.is_external = false :=
  edgeInv_foldl_analyze env files emptyReport
    (by intro s t; simp [emptyReport, dictGet]) src target

/-- C6: for every file, pattern and language, a timed-out or malformed-output
ast-grep invocation yields zero records for that file/pattern pair — the
embedded `run_astgrep`, like the `try/except` in the code, returns a value in
every case instead of propagating an error — whichever import-kind position of
the python or the typescript/javascript extraction driver the invocation sits
in; every other invocation, the remaining patterns of the same file, and the
extraction of every other file (through either driver, and through the
`analyze_file` dispatcher) continue unchanged. -/
theorem astgrep_failure_isolated (env env2 : AstEnv) (fp pat lang : String)
    (hagree : ∀ f q l, ¬(f = fp ∧ q = pat ∧ l = lang) → env2 f q l = env f q l)
    (hbad : env2 fp pat lang = AstgrepOutcome.timedOut ∨
      ∃ rc out, env2 fp pat lang = AstgrepOutcome.completed rc out none) :
    run_astgrep env2 fp pat lang = [] ∧
    (∀ t, depsOfMatches (run_astgrep env2 fp pat lang) t fp = []) ∧
    (∀ f q l, ¬(f = fp ∧ q = pat ∧ l = lang) →
      run_astgrep env2 f q l = run_astgrep env f q l) ∧
    (∀ q l t, ¬(q = pat ∧ l = lang) →
      depsOfMatches (run_astgrep env2 fp q l) t fp =
        depsOfMatches (run_astgrep env fp q l) t fp) ∧
    (∀ f, f ≠ fp →
      analyze_python_imports env2 f = analyze_python_imports env f) ∧
    (∀ f l, f ≠ fp →
      analyze_typescript_imports env2 f l = analyze_typescript_imports env f l) ∧
    (∀ report f, f ≠ fp →
      analyze_file env2 report f = analyze_file env report f) := by
  have habs : run_astgrep env2 fp pat lang = [] := by
    rcases hbad with hb | ⟨rc, out, hb⟩ <;> simp [run_astgrep, hb]
  have hother : ∀ f q l, ¬(f = fp ∧ q = pat ∧ l = lang) →
      run_astgrep env2 f q l = run_astgrep env f q l := by
    intro f q l h
    unfold run_astgrep
    rw [hagree f q l h]
  have hpy : ∀ f, f ≠ fp →
      analyze_python_imports env2 f = analyze_python_imports env f := by
    intro f hf
    have hrun : ∀ q l, run_astgrep env2 f q l = run_astgrep env f q l :=
      fun q l => hother f q l (fun hc => hf hc.1)
    unfold analyze_python_imports pythonPatternDeps
    simp only [hrun]
  have hts : ∀ f l, f ≠ fp →
      analyze_typescript_imports env2 f l = analyze_typescript_imports env f l := by
    intro f l hf
    have hrun : ∀ q l2, run_astgrep env2 f q l2 = run_astgrep env f q l2 :=
      fun q l2 => hother f q l2 (fun hc => hf hc.1)
    unfold analyze_typescript_imports
    simp only [hrun]
  refine ⟨habs, ?_, hother, ?_, hpy, hts, ?_⟩
  · intro t
    rw [habs]
    rfl
  · intro q l t h
    rw [hother fp q l (fun hc => h ⟨hc.2.1, hc.2.2⟩)]
  · intro report f hf
    unfold analyze_file
    rw [hpy f hf, hts f "typescript" hf, hts f "javascript" hf]

/-- Witness for C6 at a concrete environment in which exactly the typescript
`require` invocation on `m.ts` times out: that pair yields zero records, the
other invocations and patterns of `m.ts` are unchanged, and the extraction of
`other.py` and `other.ts` (python driver, typescript driver, and the full
`analyze_file` dispatcher) is unchanged. -/
theorem astgrep_failure_isolated_witness :
    run_astgrep envC6bad "m.ts" "require(\"$PACKAGE\")" "typescript" = [] ∧
    depsOfMatches (run_astgrep envC6bad "m.ts" "require(\"$PACKAGE\")" "typescript")
      "require" "m.ts" = [] ∧
    run_astgrep envC6bad "m.ts" "import(\"$PACKAGE\")" "typescript" =
      run_astgrep envC6ok "m.ts" "import(\"$PACKAGE\")" "typescript" ∧
    depsOfMatches (run_astgrep envC6bad "m.ts" "import(\"$PACKAGE\")" "typescript")
        "dynamic" "m.ts" =
      depsOfMatches (run_astgrep envC6ok "m.ts" "import(\"$PACKAGE\")" "typescript")
        "dynamic" "m.ts" ∧
    analyze_python_imports envC6bad "other.py" =
      analyze_python_imports envC6ok "other.py" ∧
    analyze_typescript_imports envC6bad "other.ts" "typescript" =
      analyze_typescript_imports envC6ok "other.ts" "typescript" ∧
    analyze_file envC6bad emptyReport "other.ts" =
      analyze_file envC6ok emptyReport "other.ts" := by
  obtain ⟨h1, h2, h3, h4, h5, h6, h7⟩ :=
    astgrep_failure_isolated envC6ok envC6bad "m.ts" "require(\"$PACKAGE\")"
      "typescript"
      (by
        intro f q l hc
        unfold envC6bad
        rw [if_neg hc]
        rfl)
      (Or.inl (by decide))
  exact ⟨h1, h2 _, h3 _ _ _ (by decide), h4 _ _ _ (by decide),
    h5 _ (by decide), h6 _ _ (by decide), h7 emptyReport _ (by decide)⟩

/-- C7 counterexample: with the root directory absent, the run does not abort
before report generation — `main` still renders the full text report of the
empty analysis, a non-empty report string. -/
theorem missing_root_counterexample :
    main_run envTimeout "/missing" none true =
      generate_report_text "/missing" emptyReport ∧
    generate_report_text "/missing" emptyReport ≠ "" := by
  constructor
  · rfl
  · decide

/-- C7 amended: an absent root directory does not abort the run: `os.walk`
yields nothing, the accumulated report is left untouched, and the text report
of the empty analysis is still generated and emitted. -/
theorem missing_root_amended (env : AstEnv) (skip_dirs : List String)
    (root : String) (report : DependencyReport) (detect : Bool) :
    analyze_directory env skip_dirs none root report = report ∧
    main_run env root none detect =
      generate_report_text root
        (if detect then find_circular_dependencies emptyReport
         else emptyReport) :=
  ⟨rfl, rfl⟩

/-- C4 counterexample: a single file holding two records of the external
package `react` is reported with usage count 2, whereas the number of distinct
files containing at least one record referencing `react` is 1. -/
theorem usage_count_counterexample :
    usage_count reportC4 "react" = 2 ∧ filesReferencing reportC4 "react" = 1 ∧
      "react" ∈ external_packages_of reportC4 := by decide

/-- The usage-count fold over the grouping equals a record count over the
concatenation of all per-file record lists. -/
theorem usage_count_foldl (package : String) :
    ∀ (l : List (String × List DependencyInfo)) (n : Nat),
      l.foldl (fun acc e => acc + e.2.countP (fun dep => dep.package == package)) n =
        n + (l.map Prod.snd).flatten.countP (fun dep => dep.package == package)
  | [], n => by simp
  | e :: rest, n => by
    simp only [List.foldl_cons, List.map_cons, List.flatten_cons,
      List.countP_append]
    rw [usage_count_foldl package rest]
    omega

/-- C4 amended: the reported usage count of a package equals the total number
of dependency records across all files — duplicates within a file each counted,
and regardless of the records' own externality flag — whose package equals it. -/
theorem usage_count_amended (report : DependencyReport) (package : String) :
    usage_count report package =
      (report.dependencies_by_file.map Prod.snd).flatten.countP
        (fun dep => dep.package == package) := by
  unfold usage_count
  rw [usage_count_foldl]
  omega

/-- C8 counterexample: under `envC8`, file `a.py` holds two records (both
external, so zero distinct outgoing graph edges) and `b.py` holds one record
with one distinct outgoing edge; the code ranks `a.py` first while the claim's
fan-out ordering puts `b.py` first. -/
theorem top_files_counterexample :
    (top_files reportC8).map Prod.fst = ["a.py", "b.py"] ∧
    fan_out reportC8 "a.py" = 0 ∧ fan_out reportC8 "b.py" = 1 ∧
    (claimRankingByFanOut reportC8).map Prod.fst = ["b.py", "a.py"] ∧
    top_files reportC8 ≠ claimRankingByFanOut reportC8 := by decide

/-- Filtering an `orderedInsert` under the descending-by-key relation at a
fixed key: the inserted element joins the front of its key class, all other
key classes are untouched (every element skipped over has a strictly larger
key). -/
theorem filter_orderedInsert_key {α : Type} (key : α → Nat) (k : Nat) (x : α) :
    ∀ l : List α,
      (List.orderedInsert (fun a b => key b ≤ key a) x l).filter
          (fun e => key e == k) =
        if key x == k then x :: l.filter (fun e => key e == k)
        else l.filter (fun e => key e == k)
  | [] => by
    simp only [List.orderedInsert, List.filter_cons, List.filter_nil]
  | y :: ys => by
    by_cases hxy : key y ≤ key x
    · simp only [List.orderedInsert, if_pos hxy, List.filter_cons]
    · have hlt : key x < key y := Nat.lt_of_not_le hxy
      simp only [List.orderedInsert, if_neg hxy, List.filter_cons]
      rw [filter_orderedInsert_key key k x ys]
      by_cases hk : key x = k
      · subst hk
        have hy : (key y == key x) = false := by
          simp only [beq_eq_false_iff_ne, ne_eq]
          omega
        simp [hy]
      · have hx : (key x == k) = false := by
          simp only [beq_eq_false_iff_ne, ne_eq]
          exact hk
        simp [hx]

/-- Stability of the descending-by-key insertion sort: the subsequence of
elements at any fixed key is exactly the input's subsequence at that key. -/
theorem filter_insertionSort_key {α : Type} (key : α → Nat) (k : Nat) :
    ∀ l : List α,
      (List.insertionSort (fun a b => key b ≤ key a) l).filter
          (fun e => key e == k) =
        l.filter (fun e => key e == k)
  | [] => rfl
  | x :: l => by
    simp only [List.insertionSort]
    rw [filter_orderedInsert_key, filter_insertionSort_key key k l,
      List.filter_cons]

/-- The descending-by-key insertion sort is sorted. -/
theorem pairwise_insertionSort_key {α : Type} (key : α → Nat) (l : List α) :
    List.Pairwise (fun a b => key b ≤ key a)
      (List.insertionSort (fun a b => key b ≤ key a) l) := by
  haveI : IsTotal α (fun a b => key b ≤ key a) :=
    ⟨fun a b => (Nat.le_total (key a) (key b)).symm⟩
  haveI : IsTrans α (fun a b => key b ≤ key a) :=
    ⟨fun _ _ _ hab hbc => le_trans hbc hab⟩
  exact List.sorted_insertionSort _ l

/-- C8 amended: the report's file ranking lists the (up to ten) files in
descending order of their stored record count — every record counted, external
and duplicate references included, not distinct graph edges — and files of
equal record count appear in their stable input order (the ranking's
subsequence at each count equals the input's). -/
theorem top_files_amended (report : DependencyReport) :
    List.Pairwise (fun a b => b.2.length ≤ a.2.length) (top_files report) ∧
    ∀ k : Nat,
      (List.insertionSort (fun a b => b.2.length ≤ a.2.length)
          report.dependencies_by_file).filter (fun e => e.2.length == k) =
        report.dependencies_by_file.filter (fun e => e.2.length == k) := by
  constructor
  · unfold top_files
    exact List.Pairwise.sublist (List.take_sublist _ _)
      (pairwise_insertionSort_key (fun e => e.2.length)
        report.dependencies_by_file)
  · intro k
    exact filter_insertionSort_key (fun e => e.2.length) k
      report.dependencies_by_file

/-- Splitting the dedup fold along an append of discovery lists. -/
theorem dedupAppend_append (circ l1 l2 : List (List String)) :
    dedupAppend circ (l1 ++ l2) = dedupAppend (dedupAppend circ l1) l2 := by
  unfold dedupAppend
  rw [List.foldl_append]

/-- The dedup fold with a single appended discovery is one dedup step. -/
theorem dedupAppend_concat (circ found : List (List String))
    (cycle : List String) :
    dedupAppend circ (found ++ [cycle]) =
      if cycle ∈ dedupAppend circ found then dedupAppend circ found
      else dedupAppend circ found ++ [cycle] := by
  rw [dedupAppend_append]
  rfl

/-- Entries of the accumulator survive the dedup fold. -/
theorem mem_dedupAppend_left {x : List String} :
    ∀ (found circ : List (List String)), x ∈ circ → x ∈ dedupAppend circ found
  | [], _, h => h
  | c :: rest, circ, h => by
    unfold dedupAppend at *
    simp only [List.foldl_cons]
    by_cases hc : c ∈ circ
    · simp only [if_pos hc]
      exact mem_dedupAppend_left rest circ h
    · simp only [if_neg hc]
      exact mem_dedupAppend_left rest _ (List.mem_append_left _ h)

/-- Every discovered cycle is present after the dedup fold. -/
theorem mem_dedupAppend_right {x : List String} :
    ∀ (found circ : List (List String)), x ∈ found → x ∈ dedupAppend circ found
  | [], _, h => absurd h (List.not_mem_nil _)
  | c :: rest, circ, h => by
    unfold dedupAppend at *
    simp only [List.foldl_cons]
    rcases List.mem_cons.mp h with rfl | h2
    · by_cases hc : x ∈ circ
      · simp only [if_pos hc]
        exact mem_dedupAppend_left rest circ hc
      · simp only [if_neg hc]
        exact mem_dedupAppend_left rest _
          (List.mem_append_right _ (List.mem_singleton.mpr rfl))
    · exact mem_dedupAppend_right rest _ h2

/-- The dedup fold adds nothing when every discovery is already present. -/
theorem dedupAppend_of_subset :
    ∀ (found circ : List (List String)), (∀ x ∈ found, x ∈ circ) →
      dedupAppend circ found = circ
  | [], _, _ => rfl
  | c :: rest, circ, h => by
    unfold dedupAppend at *
    simp only [List.foldl_cons, if_pos (h c (List.mem_cons_self _ _))]
    exact dedupAppend_of_subset rest circ
      (fun x hx => h x (List.mem_cons_of_mem _ hx))

/-- Deduplicating the same discovery list twice adds nothing the second time. -/
theorem dedupAppend_idem (circ found : List (List String)) :
    dedupAppend (dedupAppend circ found) found = dedupAppend circ found :=
  dedupAppend_of_subset found _ (fun _ hx => mem_dedupAppend_right found circ hx)

/-- Unfolding `dfsVisit` at positive fuel into the named step function. -/
theorem dfsVisit_succ (g : List (String × List String)) (fuel : Nat)
    (node : String) (path visited recStack : List String)
    (circ : List (List String)) :
    dfsVisit g (Nat.succ fuel) node path visited recStack circ =
      (dictGet g node).foldl
        (dfsNeighborStep g fuel (path ++ [node]) (setAdd recStack node))
        (setAdd visited node, circ) := rfl

/-- Unfolding `rawVisit` at positive fuel into the named step function. -/
theorem rawVisit_succ (g : List (String × List String)) (fuel : Nat)
    (node : String) (path visited recStack : List String) :
    rawVisit g (Nat.succ fuel) node path visited recStack =
      (dictGet g node).foldl
        (rawNeighborStep g fuel (path ++ [node]) (setAdd recStack node))
        (setAdd visited node, []) := rfl

/-- The neighbor loop factors through the raw discovery loop followed by the
dedup fold, given that the one-node visitor does at the next recursion
level. -/
theorem foldl_neighbors_factor (g : List (String × List String)) (fuel : Nat)
    (hIH : ∀ node path v r c, dfsVisit g fuel node path v r c =
      ((rawVisit g fuel node path v r).1,
       dedupAppend c (rawVisit g fuel node path v r).2))
    (path recStack : List String) :
    ∀ (nbs v : List String) (f circ : List (List String)),
      nbs.foldl (dfsNeighborStep g fuel path recStack) (v, dedupAppend circ f) =
        ((nbs.foldl (rawNeighborStep g fuel path recStack) (v, f)).1,
         dedupAppend circ
           (nbs.foldl (rawNeighborStep g fuel path recStack) (v, f)).2)
  | [], v, f, circ => rfl
  | nb :: rest, v, f, circ => by
    simp only [List.foldl_cons]
    by_cases h1 : nb ∈ v
    · by_cases h2 : nb ∈ recStack
      · rw [show dfsNeighborStep g fuel path recStack (v, dedupAppend circ f) nb =
              (v, dedupAppend circ
                (f ++ [path.drop (listIndexOf path nb) ++ [nb]])) from by
            unfold dfsNeighborStep
            simp only [h1, not_true_eq_false, if_false, if_pos h2,
              dedupAppend_concat],
          show rawNeighborStep g fuel path recStack (v, f) nb =
              (v, f ++ [path.drop (listIndexOf path nb) ++ [nb]]) from by
            unfold rawNeighborStep
            simp [h1, h2]]
        exact foldl_neighbors_factor g fuel hIH path recStack rest v _ circ
      · rw [show dfsNeighborStep g fuel path recStack (v, dedupAppend circ f) nb =
              (v, dedupAppend circ f) from by
            unfold dfsNeighborStep
            simp [h1, h2],
          show rawNeighborStep g fuel path recStack (v, f) nb = (v, f) from by
            unfold rawNeighborStep
            simp [h1, h2]]
        exact foldl_neighbors_factor g fuel hIH path recStack rest v f circ
    · rw [show dfsNeighborStep g fuel path recStack (v, dedupAppend circ f) nb =
            ((rawVisit g fuel nb path v recStack).1,
             dedupAppend circ (f ++ (rawVisit g fuel nb path v recStack).2)) from by
          unfold dfsNeighborStep
          simp only [h1, not_false_eq_true, if_pos]
          rw [hIH, dedupAppend_append],
        show rawNeighborStep g fuel path recStack (v, f) nb =
            ((rawVisit g fuel nb path v recStack).1,
             f ++ (rawVisit g fuel nb path v recStack).2) from by
          unfold rawNeighborStep
          simp [h1]]
      exact foldl_neighbors_factor g fuel hIH path recStack rest _ _ circ

/-- `dfsVisit` equals `rawVisit` followed by the dedup fold: discoveries do not
depend on the pre-existing cycle list, which only filters duplicates. -/
theorem dfsVisit_factor (g : List (String × List String)) :
    ∀ (fuel : Nat) (node : String) (path visited recStack : List String)
      (circ : List (List String)),
      dfsVisit g fuel node path visited recStack circ =
        ((rawVisit g fuel node path visited recStack).1,
         dedupAppend circ (rawVisit g fuel node path visited recStack).2)
  | 0, _, _, _, _, _ => rfl
  | Nat.succ fuel, node, path, visited, recStack, circ => by
    rw [dfsVisit_succ, rawVisit_succ]
    exact foldl_neighbors_factor g fuel (dfsVisit_factor g fuel)
      (path ++ [node]) (setAdd recStack node) (dictGet g node)
      (setAdd visited node) [] circ

/-- The root loop factors the same way. -/
theorem foldl_roots_factor (g : List (String × List String)) :
    ∀ (nodes v : List String) (f circ : List (List String)),
      nodes.foldl (dfsRootStep g) (v, dedupAppend circ f) =
        ((nodes.foldl (rawRootStep g) (v, f)).1,
         dedupAppend circ (nodes.foldl (rawRootStep g) (v, f)).2)
  | [], v, f, circ => rfl
  | n :: rest, v, f, circ => by
    simp only [List.foldl_cons]
    by_cases h1 : n ∈ v
    · rw [show dfsRootStep g (v, dedupAppend circ f) n = (v, dedupAppend circ f) from by
          unfold dfsRootStep
          simp [h1],
        show rawRootStep g (v, f) n = (v, f) from by
          unfold rawRootStep
          simp [h1]]
      exact foldl_roots_factor g rest v f circ
    · rw [show dfsRootStep g (v, dedupAppend circ f) n =
            ((rawVisit g (graphFuel g) n [] v []).1,
             dedupAppend circ (f ++ (rawVisit g (graphFuel g) n [] v []).2)) from by
          unfold dfsRootStep
          simp only [h1, not_false_eq_true, if_pos]
          rw [dfsVisit_factor, dedupAppend_append],
        show rawRootStep g (v, f) n =
            ((rawVisit g (graphFuel g) n [] v []).1,
             f ++ (rawVisit g (graphFuel g) n [] v []).2) from by
          unfold rawRootStep
          simp [h1]]
      exact foldl_roots_factor g rest _ _ circ

/-- Unfolding `find_circular_dependencies` into the named root step. -/
theorem find_circular_eq (report : DependencyReport) :
    find_circular_dependencies report =
      { report with circular_dependencies :=
          ((report.dependency_graph.map Prod.fst).foldl
            (dfsRootStep report.dependency_graph)
            ([], report.circular_dependencies)).2 } := rfl

/-- Unfolding `rawCycles` into the named root step. -/
theorem rawCycles_eq (g : List (String × List String)) :
    rawCycles g = ((g.map Prod.fst).foldl (rawRootStep g) ([], [])).2 := rfl

/-- One detector run appends exactly the deduplicated raw discoveries, which
depend only on the graph. -/
theorem find_circular_factor (report : DependencyReport) :
    find_circular_dependencies report =
      { report with circular_dependencies := dedupAppend report.circular_dependencies (rawCycles report.dependency_graph) } := by
  rw [find_circular_eq, rawCycles_eq]
  have h := foldl_roots_factor report.dependency_graph
    (report.dependency_graph.map Prod.fst) [] [] report.circular_dependencies
  rw [show (([], report.circular_dependencies) :
      List String × List (List String)) =
      ([], dedupAppend report.circular_dependencies []) from rfl, h]

/-- C5: running the cycle detector twice in succession on the unmodified graph
yields exactly the same cycle list as one run; the second run adds no new
entries. -/
theorem find_circular_idempotent (report : DependencyReport) :
    find_circular_dependencies (find_circular_dependencies report) =
      find_circular_dependencies report := by
  rw [find_circular_factor report, find_circular_factor]
  show ({ report with circular_dependencies := dedupAppend (dedupAppend report.circular_dependencies (rawCycles report.dependency_graph)) (rawCycles report.dependency_graph) } : DependencyReport) = _
  rw [dedupAppend_idem]

end CodeInventory
